import Mathlib

/-!
Shallow embedding of the SPDK logging module, src/lib/log/log.c.

Conventions of the embedding:
  - C int fields become Int; sizes and level ordinals become Nat.
  - The global mutable state of the rate limiter, struct ratelimit_state,
    becomes an explicit record threaded through each operation.
  - Writes to the two sinks, fprintf to stderr and syslog, become values of
    an Event list returned by each operation.
  - The monotonic clock read, get_current_system_time, becomes an explicit
    Int parameter now, in microseconds.  The C function reads the clock
    twice a few instructions apart inside one call; a single sequential call
    is modelled with one time value.
  - The wall clock timestamp, get_timestamp_prefix, depends on strftime and
    localtime; the strftime result and the microsecond part are explicit
    parameters, with the localtime failure branch modelled by Option.
  - vsnprintf rendering of the variadic arguments is external C library
    behaviour; the rendered message body is an explicit parameter, and the
    raw format is kept separately for the override path.
  - The spin lock is taken without contention in this sequential model; the
    trylock early return of log_print_ratelimit, line 140, belongs to the
    concurrent behaviour and all rate limiter claims assume no contention.
  - No snprintf truncation is modelled: every line written in log.c is far
    below MAX_TMPBUF = 1024 bytes for the inputs considered.
-/

/-- Printf style helper: pad a rendered string on the left with a fill
character up to a minimum width, as the C conversions with a width do. -/
def padLeftWith (c : Char) (w : Nat) (s : String) : String :=
  String.mk (List.replicate (w - s.length) c) ++ s

/-- The C conversion d with a minimum field width, space filled, as in the
line number conversion of log.c lines 288 and 296. -/
def sprintf_d (w : Nat) (n : Int) : String :=
  padLeftWith ' ' w (toString n)

/-- The C conversion 06ld of get_timestamp_prefix: zero filled decimal. -/
def sprintf_0ld (w : Nat) (n : Nat) : String :=
  padLeftWith '0' w (toString n)

/-- The C conversions 08x and 2.2x of fdump: zero filled lowercase hex. -/
def sprintf_x (w : Nat) (n : Nat) : String :=
  padLeftWith '0' w (String.mk (Nat.toDigits 16 n))

/-- One externally visible side effect of the module: a write to the console
sink (fprintf to stderr), a write to the system log sink (syslog), or a call
of the installed custom sink override g_log with the raw arguments. -/
inductive Event where
  | stderrWrite (s : String)
  | syslogWrite (severity : Int) (s : String)
  | overrideCall (level : Nat) (file : Option String) (line : Int)
      (func : String) (format : String)
deriving DecidableEq, Repr

/-- Whether an event is a write to the console sink. -/
def Event.isStderrWrite : Event → Bool
  | .stderrWrite _ => true
  | _ => false

/-- struct ratelimit_state of log.c lines 13 to 20, without the lock. -/
structure RatelimitState where
  interval : Int
  burst : Int
  printed : Int
  missed : Int
  begin : Int
deriving DecidableEq, Repr

/-- VLOG_RATELIMIT_INTERVAL_DEFAULT and VLOG_RATELIMIT_BURST_DEFAULT applied
by spdk_log_ratelimit_init, log.c lines 80 to 87: the state at process
start. -/
def initRatelimitState : RatelimitState :=
  { interval := 10, burst := 5000, printed := 0, missed := 0, begin := 0 }

/-- Severity level ordinals of enum spdk_log_level. -/
def SPDK_LOG_DISABLED : Nat := 0
/-- Severity level ERROR. -/
def SPDK_LOG_ERROR : Nat := 1
/-- Severity level WARN. -/
def SPDK_LOG_WARN : Nat := 2
/-- Severity level NOTICE. -/
def SPDK_LOG_NOTICE : Nat := 3
/-- Severity level INFO. -/
def SPDK_LOG_INFO : Nat := 4
/-- Severity level DEBUG. -/
def SPDK_LOG_DEBUG : Nat := 5

/-- syslog severity constant LOG_ERR. -/
def LOG_ERR : Int := 3
/-- syslog severity constant LOG_WARNING. -/
def LOG_WARNING : Int := 4
/-- syslog severity constant LOG_NOTICE. -/
def LOG_NOTICE : Int := 5
/-- syslog severity constant LOG_INFO. -/
def LOG_INFO : Int := 6

/-- spdk_log_to_syslog_level, log.c lines 234 to 254. -/
def spdk_log_to_syslog_level (level : Nat) : Int :=
  match level with
  | 0 => -1
  | 1 => LOG_ERR
  | 2 => LOG_WARNING
  | 3 => LOG_NOTICE
  | 4 => LOG_INFO
  | 5 => LOG_INFO
  | _ => LOG_INFO

/-- spdk_level_names, log.c lines 22 to 28.  Index 0 is not initialized in
the C array and is never read on a reachable path; it is mapped to the empty
string here. -/
def spdk_level_names (level : Nat) : String :=
  match level with
  | 1 => "ERROR"
  | 2 => "WARNING"
  | 3 => "NOTICE"
  | 4 => "INFO"
  | 5 => "DEBUG"
  | _ => ""

/-- get_timestamp_prefix, log.c lines 198 to 221.  The date argument is the
strftime rendering of localtime, with none standing for a localtime failure,
which the C code replaces by the words unknown date. -/
def get_timestamp_prefix (enabled : Bool) (date : Option String)
    (usec : Nat) : String :=
  if !enabled then ""
  else "[" ++ date.getD "unknown date" ++ "." ++ sprintf_0ld 6 usec ++ "] "

/-- The summary line of log_print_ratelimit, log.c line 152: fprintf of the
timestamp, the missed count and the printed count to stderr. -/
def ratelimitSummary (ts : String) (missed printed : Int) : String :=
  ts ++ ": " ++ toString missed ++ " log messages suppressed, "
    ++ toString printed ++ " printed\n"

/-- Lines 161 to 167 of log.c: the burst decision of log_print_ratelimit.
The C condition reads burst and burst greater than printed. -/
def ratelimit_decide (s : RatelimitState) : Bool × RatelimitState :=
  if s.burst ≠ 0 ∧ s.printed < s.burst then
    (true, { s with printed := s.printed + 1 })
  else
    (false, { s with missed := s.missed + 1 })

/-- log_print_ratelimit, log.c lines 123 to 172, in the no contention case:
the trylock of line 140 succeeds.  Returns the decision, the new limiter
state and the console writes performed.  The parameter now is the monotonic
clock in microseconds; ts is the wall clock prefix that the C code computes
with get_timestamp_prefix at this call. -/
def log_print_ratelimit (s : RatelimitState) (now : Int) (ts : String) :
    Bool × RatelimitState × List Event :=
  if s.interval = 0 then (false, s, [])
  else
    let s1 := if s.begin = 0 then { s with begin := now } else s
    let r2 :=
      if s1.begin + s1.interval * 1000000 < now then
        let r15 :=
          if s1.missed ≠ 0 then
            ({ s1 with missed := 0 },
             [Event.stderrWrite (ratelimitSummary ts s1.missed s1.printed)])
          else (s1, [])
        ({ r15.1 with begin := now, printed := 0 }, r15.2)
      else (s1, [])
    let d := ratelimit_decide r2.1
    (d.1, d.2, r2.2)

/-- Iterate the rate gate over a list of call times, collecting the
decisions and the final state.  The console writes are dropped here; they
are examined through log_print_ratelimit directly. -/
def runGate (s : RatelimitState) (ts : String) : List Int →
    List Bool × RatelimitState
  | [] => ([], s)
  | t :: rest =>
    let r := log_print_ratelimit s t ts
    let rec' := runGate r.2.1 ts rest
    (r.1 :: rec'.1, rec'.2)

/-- The operations that mutate the shared limiter state: a rate gate call at
some monotonic time with some timestamp prefix, spdk_log_ratelimit_set_interval
(log.c lines 89 to 97), and spdk_log_ratelimit_set_burst (lines 105 to 113). -/
inductive LogOp where
  | gate (now : Int) (ts : String)
  | setInterval (i : Int)
  | setBurst (b : Int)
deriving DecidableEq, Repr

/-- Apply one operation to the limiter state. -/
def applyOp (s : RatelimitState) : LogOp → RatelimitState
  | .gate now ts => (log_print_ratelimit s now ts).2.1
  | .setInterval i => { s with interval := i }
  | .setBurst b => { s with burst := b }

/-- The threshold fast path condition of spdk_vlog, log.c line 269: the
level exceeds both the print threshold and the log threshold. -/
def vlog_threshold_filtered (level pl ll : Nat) : Bool :=
  decide (pl < level) && decide (ll < level)

/-- The console line of spdk_vlog, log.c lines 285 to 291: with a file, the
timestamp, file, the line number under the d conversion with width four,
func, the level name between asterisks, and the rendered message; with a
null file, the timestamp and the rendered message. -/
def consoleMessageLine (ts : String) (file : Option String) (line : Int)
    (func : String) (name : String) (msg : String) : String :=
  match file with
  | some f =>
    ts ++ f ++ ":" ++ sprintf_d 4 line ++ ":" ++ func ++ ": *" ++ name
      ++ "*: " ++ msg
  | none => ts ++ msg

/-- The syslog line of spdk_vlog, log.c lines 294 to 299: as the console
line but with no timestamp. -/
def syslogMessageLine (file : Option String) (line : Int) (func : String)
    (name : String) (msg : String) : String :=
  match file with
  | some f =>
    f ++ ":" ++ sprintf_d 4 line ++ ":" ++ func ++ ": *" ++ name
      ++ "*: " ++ msg
  | none => msg

/-- spdk_vlog, log.c lines 256 to 301.  The parameter ov is whether the
custom sink override g_log is installed; pl and ll are the print and log
thresholds; rs the limiter state; now the monotonic clock; en, date, usec
the inputs of get_timestamp_prefix; fmt the raw format handed to an
override; rend the vsnprintf rendering of the format and arguments.
Returns the events emitted and the new limiter state. -/
def spdk_vlog (ov : Bool) (pl ll : Nat) (rs : RatelimitState) (now : Int)
    (en : Bool) (date : Option String) (usec : Nat) (level : Nat)
    (file : Option String) (line : Int) (func : String)
    (fmt rend : String) : List Event × RatelimitState :=
  if ov then
    ([Event.overrideCall level file line func fmt], rs)
  else if vlog_threshold_filtered level pl ll then ([], rs)
  else if spdk_log_to_syslog_level level < 0 then ([], rs)
  else
    let ts := get_timestamp_prefix en date usec
    let r := log_print_ratelimit rs now ts
    if !r.1 then (r.2.2, r.2.1)
    else
      let printEvs :=
        if level ≤ pl then
          [Event.stderrWrite
            (consoleMessageLine ts file line func (spdk_level_names level)
              rend)]
        else []
      let logEvs :=
        if level ≤ ll then
          [Event.syslogWrite (spdk_log_to_syslog_level level)
            (syslogMessageLine file line func (spdk_level_names level) rend)]
        else []
      (r.2.2 ++ printEvs ++ logEvs, r.2.1)

/-- Whether a byte is printable in the C locale, as isprint classifies it in
fdump line 333. -/
def isPrintByte (b : Nat) : Bool :=
  decide (0x20 ≤ b) && decide (b ≤ 0x7e)

/-- The padding loop of fdump, log.c lines 335 to 342: starting at the
absolute index start, three blanks per missing byte column up to the next
multiple of sixteen, with one extra blank when the absolute index eight is
reached.  Returns the text appended to the row. -/
def fdumpPad (start : Nat) : String :=
  String.join ((List.range ((16 - start % 16) % 16)).map
    (fun j => (if start + j = 8 then " " else "") ++ "   "))

/-- The main loop of fdump, log.c lines 315 to 334, followed by the padding
loop and the final flush of lines 335 to 344.  tmp is the partial row text,
b16 the printable rendering of the bytes of the current row, idx the
absolute index of the next byte. -/
def fdumpLoop (tmp b16 : String) (idx : Nat) : List Nat → List String
  | [] => [tmp ++ fdumpPad idx ++ "  " ++ b16]
  | b :: rest =>
    let flush := idx ≠ 0 ∧ idx % 16 = 0
    let out := if flush then [tmp ++ " " ++ b16] else []
    let tmp1 := if flush then "" else tmp
    let b161 := if flush then "" else b16
    let tmp2 := if idx % 16 = 0 then tmp1 ++ sprintf_x 8 idx ++ " " else tmp1
    let tmp3 := if idx % 8 = 0 then tmp2 ++ " " else tmp2
    let tmp4 := tmp3 ++ sprintf_x 2 (b % 256) ++ " "
    let b162 := b161.push (if isPrintByte b then Char.ofNat b else '.')
    out ++ fdumpLoop tmp4 b162 (idx + 1) rest

/-- fdump, log.c lines 303 to 346: the label on its own line, then the rows
produced by the loop.  Each list entry is one line written to the sink,
without its trailing newline. -/
def fdumpLines (label : String) (buf : List Nat) : List String :=
  label :: fdumpLoop "" "" 0 buf

/-! Helper lemmas shared by the claim theorems. -/

/-- The syslog mapping is nonnegative for every level other than DISABLED. -/
lemma spdk_log_to_syslog_level_nonneg (level : Nat) (h : 1 ≤ level) :
    ¬ spdk_log_to_syslog_level level < 0 := by
  match level with
  | 1 => decide
  | 2 => decide
  | 3 => decide
  | 4 => decide
  | 5 => decide
  | n + 6 => show ¬ LOG_INFO < 0; decide
  | 0 => exact absurd h (by decide)

/-- Rate gate under a window rollover with a nonzero missed counter: the
summary is written, the counters are reset, and the decision is taken on
the reset state. -/
lemma gate_rollover (s : RatelimitState) (now : Int) (ts : String)
    (hI : s.interval ≠ 0) (hw : s.begin ≠ 0)
    (ht : s.begin + s.interval * 1000000 < now) (hm : s.missed ≠ 0) :
    log_print_ratelimit s now ts =
      (let d := ratelimit_decide
        { s with begin := now, printed := 0, missed := 0 };
       (d.1, d.2,
        [Event.stderrWrite (ratelimitSummary ts s.missed s.printed)])) := by
  simp only [log_print_ratelimit, if_neg hI, if_neg hw, if_pos ht, if_pos hm]

/-- Rate gate under a window rollover with no missed messages: no summary,
counters reset, decision on the reset state. -/
lemma gate_rollover_nomiss (s : RatelimitState) (now : Int) (ts : String)
    (hI : s.interval ≠ 0) (hw : s.begin ≠ 0)
    (ht : s.begin + s.interval * 1000000 < now) (hm : s.missed = 0) :
    log_print_ratelimit s now ts =
      (let d := ratelimit_decide
        { s with begin := now, printed := 0, missed := 0 };
       (d.1, d.2, [])) := by
  simp only [log_print_ratelimit, if_neg hI, if_neg hw, if_pos ht]
  simp [hm]

/-! Claim theorems. -/

/-- C4: when the custom sink override is installed, spdk_vlog forwards the
raw level, file, line, func and format to the override and returns at once,
for every level and every threshold configuration: no filtering, no rate
limiting, no timestamping, no formatting, the limiter state unchanged and no
write to the console or system log sinks by the core itself. -/
theorem c4_override_bypasses_core (pl ll : Nat) (rs : RatelimitState)
    (now : Int) (en : Bool) (date : Option String) (usec : Nat) (level : Nat)
    (file : Option String) (line : Int) (func fmt rend : String) :
    spdk_vlog true pl ll rs now en date usec level file line func fmt rend =
      ([Event.overrideCall level file line func fmt], rs) := rfl

/-- C5: with no override installed, a spdk_vlog call whose level exceeds both
the print threshold and the log threshold returns with no effect: no event is
emitted and the rate limiter state is unchanged, the gate never invoked. -/
theorem c5_threshold_fast_path_no_effect (pl ll : Nat) (rs : RatelimitState)
    (now : Int) (en : Bool) (date : Option String) (usec : Nat) (level : Nat)
    (file : Option String) (line : Int) (func fmt rend : String)
    (hp : pl < level) (hl : ll < level) :
    spdk_vlog false pl ll rs now en date usec level file line func fmt rend =
      ([], rs) := by
  simp [spdk_vlog, vlog_threshold_filtered, hp, hl]

/-- Witness for C5 at a concrete input. -/
theorem c5_threshold_fast_path_no_effect_witness :
    spdk_vlog false 0 0 ⟨10, 5000, 3, 2, 7⟩ 99 true (some "d") 1 5
        (some "a.c") 1 "f" "x" "y" = ([], ⟨10, 5000, 3, 2, 7⟩) :=
  c5_threshold_fast_path_no_effect 0 0 ⟨10, 5000, 3, 2, 7⟩ 99 true (some "d")
    1 5 (some "a.c") 1 "f" "x" "y" (by decide) (by decide)

/-- C3: whenever interval is zero, the rate gate unconditionally returns
false with no state change and no output, and consequently every
non-override spdk_vlog call is fully suppressed: no event reaches either
sink and the limiter state is unchanged.  In particular this covers the
scenario print threshold WARN, log threshold DISABLED, level ERROR. -/
theorem c3_interval_zero_suppresses_all :
    (∀ (s : RatelimitState) (now : Int) (ts : String), s.interval = 0 →
        log_print_ratelimit s now ts = (false, s, [])) ∧
    (∀ (pl ll : Nat) (rs : RatelimitState) (now : Int) (en : Bool)
        (date : Option String) (usec : Nat) (level : Nat)
        (file : Option String) (line : Int) (func fmt rend : String),
        rs.interval = 0 →
        spdk_vlog false pl ll rs now en date usec level file line func fmt
          rend = ([], rs)) := by
  refine ⟨fun s now ts h => by simp [log_print_ratelimit, h], ?_⟩
  intro pl ll rs now en date usec level file line func fmt rend h
  by_cases hf : vlog_threshold_filtered level pl ll
  · simp [spdk_vlog, hf]
  · by_cases hs : spdk_log_to_syslog_level level < 0
    · simp [spdk_vlog, hf, hs]
    · simp [spdk_vlog, hf, hs, log_print_ratelimit, h]

/-- Witness for C3: print threshold WARN, log threshold DISABLED, interval
zero, an ERROR level call writes nothing at all. -/
theorem c3_interval_zero_suppresses_all_witness :
    spdk_vlog false SPDK_LOG_WARN SPDK_LOG_DISABLED ⟨0, 5000, 0, 0, 0⟩ 7
        true (some "d") 3 SPDK_LOG_ERROR (some "a.c") 12 "f" "x" "m\n" =
      ([], ⟨0, 5000, 0, 0, 0⟩) :=
  c3_interval_zero_suppresses_all.2 SPDK_LOG_WARN SPDK_LOG_DISABLED
    ⟨0, 5000, 0, 0, 0⟩ 7 true (some "d") 3 SPDK_LOG_ERROR (some "a.c") 12
    "f" "x" "m\n" rfl

/-- C7 counterexample: the claim, read literally, says that whenever a less
severe level L2 is filtered out by the threshold check, a more severe level
L1 is not filtered out.  With both thresholds DISABLED, WARN is filtered out
and ERROR is filtered out as well, refuting the claim. -/
theorem c7_counterexample_filter_direction :
    ¬ (∀ L1 L2 pl ll : Nat, L1 < L2 →
        vlog_threshold_filtered L2 pl ll = true →
        vlog_threshold_filtered L1 pl ll = false) := by
  intro h
  exact absurd
    (h SPDK_LOG_ERROR SPDK_LOG_WARN SPDK_LOG_DISABLED SPDK_LOG_DISABLED
      (by decide) (by decide))
    (by decide)

/-- C7 amended: the level policy is monotone in the intended direction: for
levels L1 at most L2, if the more severe L1 is filtered out by the threshold
check then so is L2; equivalently a level that passes the threshold check
admits every more severe level under the same thresholds. -/
theorem c7_amended_filter_monotone (L1 L2 pl ll : Nat) (h12 : L1 ≤ L2)
    (h1 : vlog_threshold_filtered L1 pl ll = true) :
    vlog_threshold_filtered L2 pl ll = true := by
  simp only [vlog_threshold_filtered, Bool.and_eq_true, decide_eq_true_eq]
    at h1 ⊢
  omega

/-- Witness for the amended C7 at a concrete input. -/
theorem c7_amended_filter_monotone_witness :
    vlog_threshold_filtered SPDK_LOG_WARN SPDK_LOG_DISABLED SPDK_LOG_DISABLED
      = true :=
  c7_amended_filter_monotone SPDK_LOG_ERROR SPDK_LOG_WARN SPDK_LOG_DISABLED
    SPDK_LOG_DISABLED (by decide) (by decide)

/-- C6 counterexample: from the initial state, two allowed gate calls inside
one window followed by spdk_log_ratelimit_set_burst 1 reach a state with
burst positive and printed greater than burst, refuting the claimed
invariant over all operation sequences. -/
theorem c6_counterexample_set_burst_breaks_invariant :
    0 < (List.foldl applyOp initRatelimitState
        [LogOp.gate 5 "", LogOp.gate 6 "", LogOp.setBurst 1]).burst ∧
    ¬ (List.foldl applyOp initRatelimitState
        [LogOp.gate 5 "", LogOp.gate 6 "", LogOp.setBurst 1]).printed ≤
        (List.foldl applyOp initRatelimitState
          [LogOp.gate 5 "", LogOp.gate 6 "", LogOp.setBurst 1]).burst := by
  decide

/-- C6 amended: the invariant printed at most burst when burst is positive
holds at the initial state and is preserved by every operation except a
set_burst whose argument is below the current printed count, which can break
it until the next window rollover; and from any state with a nonnegative
missed counter, missed strictly increases only on a rate gate call whose
decision is deny. -/
theorem c6_amended_invariant :
    (0 < initRatelimitState.burst →
      initRatelimitState.printed ≤ initRatelimitState.burst) ∧
    (∀ (s : RatelimitState) (op : LogOp),
      (0 < s.burst → s.printed ≤ s.burst) →
      (∀ b, op = LogOp.setBurst b → s.printed ≤ b) →
      (0 < (applyOp s op).burst →
        (applyOp s op).printed ≤ (applyOp s op).burst)) ∧
    (∀ (s : RatelimitState) (op : LogOp), 0 ≤ s.missed →
      s.missed < (applyOp s op).missed →
      ∃ now ts, op = LogOp.gate now ts ∧
        (log_print_ratelimit s now ts).1 = false) := by
  refine ⟨by decide, ?_, ?_⟩
  · intro s op hInv hsb
    cases op with
    | gate now ts =>
      simp only [applyOp, log_print_ratelimit, ratelimit_decide]
      split_ifs <;> simp_all <;> omega
    | setInterval i => simpa [applyOp] using hInv
    | setBurst b =>
      have hb := hsb b rfl
      simp only [applyOp]
      intro
      simpa using hb
  · intro s op hm h
    cases op with
    | gate now ts =>
      refine ⟨now, ts, rfl, ?_⟩
      revert h
      simp only [applyOp, log_print_ratelimit, ratelimit_decide]
      split_ifs <;> simp_all
    | setInterval i => simp [applyOp] at h
    | setBurst b => simp [applyOp] at h

/-- Witness for the amended C6 at concrete inputs: a set_burst with argument
not below printed preserves the invariant, and a deny gate call is the only
way missed grows. -/
theorem c6_amended_invariant_witness :
    (0 < (applyOp ⟨10, 5, 2, 0, 3⟩ (LogOp.setBurst 3)).burst →
      (applyOp ⟨10, 5, 2, 0, 3⟩ (LogOp.setBurst 3)).printed ≤
        (applyOp ⟨10, 5, 2, 0, 3⟩ (LogOp.setBurst 3)).burst) ∧
    (RatelimitState.missed ⟨10, 5, 2, 0, 3⟩ <
        (applyOp ⟨10, 5, 2, 0, 3⟩ (LogOp.setInterval 4)).missed →
      ∃ now ts, LogOp.setInterval 4 = LogOp.gate now ts ∧
        (log_print_ratelimit ⟨10, 5, 2, 0, 3⟩ now ts).1 = false) :=
  ⟨c6_amended_invariant.2.1 ⟨10, 5, 2, 0, 3⟩ (LogOp.setBurst 3) (by decide)
      (by intro b hb; cases hb; decide),
   c6_amended_invariant.2.2 ⟨10, 5, 2, 0, 3⟩ (LogOp.setInterval 4)
     (by decide)⟩

/-- C2: once the current monotonic time passes window start plus interval,
the next gate call resets printed to zero and the window start to the
current time, emits exactly one summary line carrying the timestamp prefix
and the old missed and printed counts to the console sink if and only if
missed was positive, resets missed to zero, and only then takes the allow or
deny decision for the current call on the reset counters. -/
theorem c2_window_rollover (s : RatelimitState) (now : Int) (ts : String)
    (hI : 0 < s.interval) (hw : s.begin ≠ 0) (hm0 : 0 ≤ s.missed)
    (ht : s.begin + s.interval * 1000000 < now) :
    log_print_ratelimit s now ts =
      (let d := ratelimit_decide
        { s with begin := now, printed := 0, missed := 0 };
       (d.1, d.2,
        if 0 < s.missed then
          [Event.stderrWrite (ratelimitSummary ts s.missed s.printed)]
        else [])) := by
  by_cases hm : s.missed = 0
  · rw [gate_rollover_nomiss s now ts (by omega) hw ht hm]
    simp [hm]
  · rw [gate_rollover s now ts (by omega) hw ht hm]
    simp only []
    rw [if_pos (by omega)]

/-- Witness for C2 at a concrete input: interval one second, window begun at
five microseconds, four missed and two printed in the old window, next call
at two million microseconds. -/
theorem c2_window_rollover_witness :
    log_print_ratelimit ⟨1, 3, 2, 4, 5⟩ 2000000 "T" =
      (true, ⟨1, 3, 1, 0, 2000000⟩,
       [Event.stderrWrite "T: 4 log messages suppressed, 2 printed\n"]) := by
  rw [c2_window_rollover ⟨1, 3, 2, 4, 5⟩ 2000000 "T" (by decide) (by decide)
    (by decide) (by decide)]
  decide

/-- C10: a non-override spdk_vlog call that reaches the gate and triggers a
window rollover with missed positive writes the suppression summary to the
console sink even though the triggering message is eligible only for the
system log sink: the summary write consults neither threshold, and the only
console write of the whole call is that summary line. -/
theorem c10_summary_ignores_thresholds (pl ll : Nat) (rs : RatelimitState)
    (now : Int) (en : Bool) (date : Option String) (usec : Nat) (level : Nat)
    (file : Option String) (line : Int) (func fmt rend : String)
    (hpl : pl < level) (hll : level ≤ ll) (hI : rs.interval ≠ 0)
    (hw : rs.begin ≠ 0) (ht : rs.begin + rs.interval * 1000000 < now)
    (hm : rs.missed ≠ 0) :
    (spdk_vlog false pl ll rs now en date usec level file line func fmt
        rend).1.filter Event.isStderrWrite =
      [Event.stderrWrite (ratelimitSummary
        ( get_timestamp_prefix en date usec) rs.missed rs.printed)] := by
  have hf : vlog_threshold_filtered level pl ll = false := by
    simp only [vlog_threshold_filtered]
    simp
    omega
  have hs := spdk_log_to_syslog_level_nonneg level (by omega)
  have hgate := gate_rollover rs now ( get_timestamp_prefix en date usec)
    hI hw ht hm
  simp only [spdk_vlog, Bool.false_eq_true, if_false, hf, if_neg hs, hgate]
  rcases hd : ratelimit_decide
      { rs with begin := now, printed := 0, missed := 0 } with ⟨d, s2⟩
  cases d <;>
    simp [List.filter, Event.isStderrWrite, if_neg (by omega : ¬ level ≤ pl),
      hll]

/-- C8 counterexample: the claim renders the line number with no extra
padding, but the C conversion of log.c line 288 pads it on the left to a
minimum width of four, so a call at line five writes a console line that
differs from the claimed template. -/
theorem c8_counterexample_line_padding :
    (spdk_vlog false 5 0 ⟨10, 5000, 0, 0, 0⟩ 5 false none 0 1 (some "a.c") 5
        "f" "x" "m\n").1 ≠
      [Event.stderrWrite "a.c:5:f: *ERROR*: m\n"] := by
  decide

/-- C8 amended: every spdk_vlog call that reaches the console sink with a
file writes the line timestamp, file, colon, the line number right aligned
and space padded to a minimum width of four, colon, func, the level name
between asterisks and the message; the level name is one of ERROR, WARNING,
NOTICE, INFO, DEBUG, and the timestamp prefix is the bracketed date and six
digit microsecond field when timestamps are enabled and empty otherwise. -/
theorem c8_amended_console_format (pl ll : Nat) (rs : RatelimitState)
    (now : Int) (en : Bool) (date : Option String) (usec : Nat) (level : Nat)
    (f : String) (line : Int) (func fmt rend : String) (hlo : 1 ≤ level)
    (hhi : level ≤ 5) (hpl : level ≤ pl)
    (hallow : (log_print_ratelimit rs now
        ( get_timestamp_prefix en date usec)).1 = true) :
    spdk_level_names level ∈ ["ERROR", "WARNING", "NOTICE", "INFO", "DEBUG"] ∧
    get_timestamp_prefix en date usec =
      (if en then "[" ++ date.getD "unknown date" ++ "."
          ++ padLeftWith '0' 6 (toString usec) ++ "] "
        else "") ∧
    Event.stderrWrite ( get_timestamp_prefix en date usec ++ f ++ ":"
        ++ padLeftWith ' ' 4 (toString line) ++ ":" ++ func ++ ": *"
        ++ spdk_level_names level ++ "*: " ++ rend) ∈
      (spdk_vlog false pl ll rs now en date usec level (some f) line func
        fmt rend).1 := by
  refine ⟨by interval_cases level <;> simp [spdk_level_names], ?_, ?_⟩
  · cases en <;> simp [ get_timestamp_prefix, sprintf_0ld]
  · have hf : vlog_threshold_filtered level pl ll = false := by
      simp only [vlog_threshold_filtered]
      simp
      omega
    have hs := spdk_log_to_syslog_level_nonneg level (by omega)
    simp only [spdk_vlog, Bool.false_eq_true, if_false, hf, if_neg hs,
      hallow, Bool.not_true, consoleMessageLine, if_pos hpl]
    simp [sprintf_d, List.mem_append]

/-- Witness for the amended C8 at a concrete input. -/
theorem c8_amended_console_format_witness :
    spdk_level_names 1 ∈ ["ERROR", "WARNING", "NOTICE", "INFO", "DEBUG"] ∧
    get_timestamp_prefix false none 0 =
      (if false then "[" ++ Option.getD none "unknown date" ++ "."
          ++ padLeftWith '0' 6 (toString 0) ++ "] "
        else "") ∧
    Event.stderrWrite ( get_timestamp_prefix false none 0 ++ "a.c" ++ ":"
        ++ padLeftWith ' ' 4 (toString (5 : Int)) ++ ":" ++ "f" ++ ": *"
        ++ spdk_level_names 1 ++ "*: " ++ "m\n") ∈
      (spdk_vlog false 5 0 ⟨10, 5000, 0, 0, 0⟩ 5 false none 0 1 (some "a.c")
        5 "f" "x" "m\n").1 :=
  c8_amended_console_format 5 0 ⟨10, 5000, 0, 0, 0⟩ 5 false none 0 1 "a.c" 5
    "f" "x" "m\n" (by decide) (by decide) (by decide) (by decide)

/-- C9 counterexample: the claim says a zero length buffer produces the
label line only, but fdump always performs the final row flush, so the dump
of an empty buffer is the label line followed by a line holding two spaces. -/
theorem c9_counterexample_empty_dump : fdumpLines "L" [] ≠ ["L"] := by
  decide

/-- C9 amended: the hex dump writes the label on its own line and then the
data rows; a zero length buffer produces the label line followed by one line
holding the two separator spaces and an empty text column; a seventeen byte
buffer produces exactly two data rows with the offsets 00000000 and
00000010, two hex digits per byte, the extra space after the eighth byte of
the first row, two spaces before the printable rendering, and the second row
right padded with three blank characters for each of the fifteen missing
byte columns. -/
theorem c9_amended_hexdump :
    (∀ (label : String) (buf : List Nat),
      (fdumpLines label buf).head? = some label) ∧
    (∀ label : String, fdumpLines label [] = [label, "  "]) ∧
    fdumpLines "L" (List.range' 0x41 17) =
      ["L",
       "00000000  41 42 43 44 45 46 47 48  49 4a 4b 4c 4d 4e 4f 50  ABCDEFGHIJKLMNOP",
       "00000010  51                                                Q"] := by
  refine ⟨fun label buf => rfl, fun label => ?_, by decide⟩
  have h : fdumpLoop "" "" 0 [] = ["  "] := by decide
  simp [fdumpLines, h]

/-- Reindexing helper: the decision pattern over a range of one more index
splits into its head and a shifted tail. -/
lemma map_range_decide_succ (B p : Int) (n : Nat) :
    (List.range (n + 1)).map (fun (i : Nat) => decide (p + (i : Int) < B)) =
      decide (p < B) ::
        (List.range n).map
          (fun (i : Nat) => decide (p + 1 + (i : Int) < B)) := by
  rw [List.range_succ_eq_map, List.map_cons, List.map_map]
  refine congrArg₂ _ (by norm_num) ?_
  refine List.map_congr_left ?_
  intro i _
  rw [Function.comp_apply, decide_eq_decide]
  push_cast
  omega

/-- Once the printed counter has reached the burst, every further decision
in the pattern is deny. -/
lemma map_range_decide_false (B p : Int) (h : B ≤ p) (n : Nat) :
    (List.range n).map (fun (i : Nat) => decide (p + (i : Int) < B)) =
      List.replicate n false := by
  rw [List.eq_replicate_iff]
  refine ⟨by simp, ?_⟩
  intro b hb
  simp only [List.mem_map, List.mem_range] at hb
  obtain ⟨i, _, rfl⟩ := hb
  simp only [decide_eq_false_iff_not, not_lt]
  omega

/-- A gate call inside the current window, with the window already begun,
neither rolls the window over nor writes anything: it only takes the burst
decision. -/
lemma gate_in_window (s : RatelimitState) (now : Int) (ts : String)
    (hI : s.interval ≠ 0) (hw : s.begin ≠ 0)
    (ht : ¬ s.begin + s.interval * 1000000 < now) :
    log_print_ratelimit s now ts =
      (let d := ratelimit_decide s
       (d.1, d.2, [])) := by
  simp only [log_print_ratelimit, if_neg hI, if_neg hw, if_neg ht]

/-- Behaviour of a run of gate calls that all fall inside the window begun
at time t1: with burst B positive and printed p at most B, the i-th call is
allowed exactly when p plus i is below B, and the final counters are the
clamped sums. -/
lemma runGate_steady (I B t1 : Int) (ts : String) (hI : I ≠ 0)
    (ht1 : t1 ≠ 0) (hB : 0 < B) :
    ∀ (times : List Int) (p m : Int), p ≤ B →
    (∀ t ∈ times, t ≤ t1 + I * 1000000) →
    runGate ⟨I, B, p, m, t1⟩ ts times =
      ((List.range times.length).map
        (fun (i : Nat) => decide (p + (i : Int) < B)),
       ⟨I, B, min (p + times.length) B, m + max 0 (p + times.length - B),
        t1⟩)
  | [], p, m, hpB, _ => by
    simp only [runGate, List.length_nil, List.range_zero, List.map_nil]
    simp only [Prod.mk.injEq, RatelimitState.mk.injEq, true_and, and_true]
    constructor <;> (push_cast; omega)
  | t :: rest, p, m, hpB, hin => by
    have hnr : ¬ (t1 + I * 1000000 < t) :=
      not_lt.mpr (hin t (List.mem_cons_self t rest))
    have hgate := gate_in_window ⟨I, B, p, m, t1⟩ t ts hI ht1 hnr
    by_cases hp : p < B
    · have hd : ratelimit_decide ⟨I, B, p, m, t1⟩ =
          (true, ⟨I, B, p + 1, m, t1⟩) := by
        simp [ratelimit_decide, hp, ne_of_gt hB]
      simp only [runGate, hgate, hd]
      rw [runGate_steady I B t1 ts hI ht1 hB rest (p + 1) m (by omega)
        (fun t' ht' => hin t' (List.mem_cons_of_mem t ht'))]
      rw [List.length_cons, map_range_decide_succ B p rest.length]
      simp only [Prod.mk.injEq, RatelimitState.mk.injEq, true_and, and_true]
      refine ⟨by simp [hp], ?_, ?_⟩
      · push_cast
        omega
      · push_cast
        omega
    · have hpe : p = B := le_antisymm hpB (not_lt.mp hp)
      subst hpe
      have hd : ratelimit_decide ⟨I, p, p, m, t1⟩ =
          (false, ⟨I, p, p, m + 1, t1⟩) := by
        simp [ratelimit_decide]
      simp only [runGate, hgate, hd]
      rw [runGate_steady I p t1 ts hI ht1 hB rest p (m + 1) (le_refl p)
        (fun t' ht' => hin t' (List.mem_cons_of_mem t ht'))]
      rw [List.length_cons, map_range_decide_succ p p rest.length]
      rw [map_range_decide_false p (p + 1) (by omega) rest.length,
        map_range_decide_false p p (le_refl p) rest.length]
      simp only [Prod.mk.injEq, RatelimitState.mk.injEq, true_and, and_true]
      refine ⟨by simp, ?_, ?_⟩
      · push_cast
        omega
      · push_cast
        omega

/-- C1: with burst B positive and interval I positive and no contention,
for any sequence of gate calls whose times all fall inside the window begun
at the first call, exactly the first B calls are allowed, every later call
in the window is denied, the printed counter ends at the number of calls
clamped to B, and the missed counter ends at the number of calls beyond B;
in particular the call after the first B returns false and raises missed
from zero to one. -/
theorem c1_burst_window (B I t1 : Int) (rest : List Int) (ts : String)
    (hB : 0 < B) (hI : 0 < I) (ht1 : 0 < t1)
    (hin : ∀ t ∈ t1 :: rest, t ≤ t1 + I * 1000000) :
    runGate ⟨I, B, 0, 0, 0⟩ ts (t1 :: rest) =
      ((List.range (rest.length + 1)).map
        (fun (i : Nat) => decide ((i : Int) < B)),
       ⟨I, B, min ((rest.length : Int) + 1) B,
        max 0 ((rest.length : Int) + 1 - B), t1⟩) := by
  have hgate : log_print_ratelimit ⟨I, B, 0, 0, 0⟩ t1 ts =
      (true, ⟨I, B, 1, 0, t1⟩, []) := by
    have hI0 : ¬ I = 0 := by omega
    have hroll : ¬ ((t1 : Int) + I * 1000000 < t1) := by
      have : 0 < I * 1000000 := by positivity
      omega
    simp [log_print_ratelimit, ratelimit_decide, hI0, hroll, hB,
      ne_of_gt hB]
  simp only [runGate, hgate]
  rw [runGate_steady I B t1 ts (by omega) (by omega) hB rest 1 0 (by omega)
    (fun t' ht' => hin t' (List.mem_cons_of_mem t1 ht'))]
  simp only [Prod.mk.injEq, RatelimitState.mk.injEq, true_and, and_true]
  refine ⟨?_, ?_, ?_⟩
  · have h1 : (List.range (rest.length + 1)).map
        (fun (i : Nat) => decide ((i : Int) < B)) =
        decide ((0 : Int) < B) :: (List.range rest.length).map
          (fun (i : Nat) => decide (0 + 1 + (i : Int) < B)) := by
      have h0 : ∀ i ∈ List.range (rest.length + 1),
          decide ((i : Int) < B) = decide (0 + (i : Int) < B) := by
        intro i _
        rw [decide_eq_decide]
        omega
      rw [List.map_congr_left h0, map_range_decide_succ B 0 rest.length]
    rw [h1]
    refine congrArg₂ _ (by simp [hB]) ?_
    refine List.map_congr_left ?_
    intro i _
    rw [decide_eq_decide]
    omega
  · omega
  · omega

/-- Witness for C1 at a concrete input: burst two, interval one second,
three calls inside the window begun at time five: allow, allow, deny, with
one missed at the end. -/
theorem c1_burst_window_witness :
    runGate ⟨1, 2, 0, 0, 0⟩ "" [5, 6, 7] =
      ([true, true, false], ⟨1, 2, 2, 1, 5⟩) := by
  rw [c1_burst_window 2 1 5 [6, 7] "" (by decide) (by decide) (by decide)
    (by decide)]
  decide

/-- Witness for C10 at a concrete input: print threshold DISABLED, log
threshold ERROR, an ERROR call that rolls the window over with four missed
messages writes the summary, and only the summary, to the console sink. -/
theorem c10_summary_ignores_thresholds_witness :
    (spdk_vlog false SPDK_LOG_DISABLED SPDK_LOG_ERROR ⟨1, 3, 2, 4, 5⟩
        2000000 false none 0 SPDK_LOG_ERROR (some "a.c") 7 "f" "x"
        "m\n").1.filter Event.isStderrWrite =
      [Event.stderrWrite (ratelimitSummary
        ( get_timestamp_prefix false none 0) 4 2)] :=
  c10_summary_ignores_thresholds SPDK_LOG_DISABLED SPDK_LOG_ERROR
    ⟨1, 3, 2, 4, 5⟩ 2000000 false none 0 SPDK_LOG_ERROR (some "a.c") 7 "f"
    "x" "m\n" (by decide) (by decide) (by decide) (by decide) (by decide)
    (by decide)
